import Mathlib

/-!
Shallow embedding of the image pre-processing endpoints of
`src/backend/src/api/endpoints/preprocessing.py` (the canonical JSON-body
variant of the service).  Decoded rasters are matrices of 8-bit samples;
calls into the external image-processing library (OpenCV) are either
modelled concretely where their documented pixel-level semantics matter
(thresholding, center-crop slicing, resize dimensions, min-max rescaling,
channel split/merge) or kept as parameters of the embedding (a `CVExt`
record of library callbacks) where only the surrounding control flow and
data flow of the repository code is at stake.
-/

/-- One pixel of a 3-channel (blue, green, red) raster. -/
abbrev Pix := Nat × Nat × Nat

/-- A single-channel raster: rows of 8-bit samples (`len(img.shape) == 2`). -/
abbrev GrayMat := List (List Nat)

/-- A 3-channel raster: rows of BGR pixels (`len(img.shape) == 3`). -/
abbrev Mat3 := List (List Pix)

/-- Well-formedness of a raster: `h` rows, each of width `w` (the numpy
shape invariant: rectangular arrays). -/
def matWF {α : Type} (m : List (List α)) (h w : Nat) : Prop :=
  m.length = h ∧ ∀ row ∈ m, row.length = w

instance {α : Type} (m : List (List α)) (h w : Nat) : Decidable (matWF m h w) :=
  inferInstanceAs (Decidable (m.length = h ∧ ∀ row ∈ m, row.length = w))

/-- A decoded in-memory image, as the handlers see it: numpy arrays with
either 2 dimensions (grayscale) or 3 dimensions (color). -/
inductive Img where
  | gray : GrayMat → Img
  | color : Mat3 → Img
deriving DecidableEq, Repr

/-- Dimensionality of the array, i.e. Python's `len(img.shape)`. -/
def Img.ndim : Img → Nat
  | .gray _ => 2
  | .color _ => 3

/-- Errors escaping a handler: an explicit `HTTPException(status, detail)`
raised by the handler, or an uncaught exception from the runtime or a
library call (which the framework would surface as a server error). -/
inductive ApiError where
  | http (status : Nat) (detail : String)
  | exn (msg : String)
deriving DecidableEq, Repr

/-- The error raised by `open_img` when decoding fails (InvalidImage). -/
def invalidImageErr : ApiError := ApiError.http 400 "Invalid image file"

/-- `NoiseReductionTechniques` enumeration (preprocessing.py lines 40-45). -/
inductive NoiseReductionTechniques where
  | gaussian_blur
  | median_blur
  | bilateral_filter
deriving DecidableEq, Repr

/-- `NormalizationTechniques` enumeration (lines 57-61). -/
inductive NormalizationTechniques where
  | rescaling
  | histogram_equalization
deriving DecidableEq, Repr

/-- `BinarizationTechniques` enumeration (lines 70-77). -/
inductive BinarizationTechniques where
  | binary
  | binary_inv
  | trunc
  | tozero
  | tozero_inv
deriving DecidableEq, BEq, Repr

/-- `ContrastTechniques` enumeration (lines 87-90). -/
inductive ContrastTechniques where
  | clahe
deriving DecidableEq, Repr

/-- `ResizeParams` pydantic model: two unconstrained integers. -/
structure ResizeParams where
  width : Int
  height : Int

/-- `NoiseReductionParams` pydantic model with its declared defaults. -/
structure NoiseReductionParams where
  technique : NoiseReductionTechniques
  kernel_size : Int := 5
  sigma_color : Float := 75.0
  sigma_space : Float := 75.0

/-- `NormalizationParams` pydantic model. -/
structure NormalizationParams where
  technique : NormalizationTechniques

/-- `BinarizationParams` pydantic model (lines 80-84): a technique and an
unconstrained integer threshold defaulting to 127. -/
structure BinarizationParams where
  technique : BinarizationTechniques
  threshold : Int := 127

/-- `ContrastParams` pydantic model with its declared defaults. -/
structure ContrastParams where
  technique : ContrastTechniques
  clip_limit : Float := 2.0
  tile_grid_size : Int := 8

/-- Request-body validation of `BinarizationParams` as pydantic performs
it: the model declares `technique: BinarizationTechniques` and
`threshold: int = 127` with no range constraint, so once the fields have
their declared types the request is accepted unconditionally. -/
def validateBinarizationParams (t : BinarizationTechniques) (T : Int) :
    Except ApiError BinarizationParams :=
  Except.ok ⟨t, T⟩

/-- External library calls used by the handlers, kept as parameters of the
embedding.  `imdecode` models `cv2.imdecode(_, cv2.IMREAD_COLOR)`: per the
library contract the `IMREAD_COLOR` flag always converts a successfully
decoded image to a 3-channel BGR raster, hence the `Mat3` result type;
`none` models a failed decode.  The pixel-wise color-space conversions
`bgr2gray`, `bgr2lab`, `lab2bgr` model `cv2.cvtColor` with the
corresponding codes (color conversions act independently on each pixel).
The remaining fields model `cv2.equalizeHist`, `cv2.createCLAHE(...).apply`
(clip limit and square tile-grid side), `cv2.GaussianBlur` (kernel-size
pair and sigma), `cv2.medianBlur` and `cv2.bilateralFilter`. -/
structure CVExt where
  imdecode : List Nat → Option Mat3
  bgr2gray : Pix → Nat
  bgr2lab : Pix → Pix
  lab2bgr : Pix → Pix
  equalizeHist : GrayMat → GrayMat
  clahe : Float → Int → GrayMat → GrayMat
  gaussianBlur : Mat3 → Int × Int → Float → Mat3
  medianBlur : Mat3 → Int → Mat3
  bilateralFilter : Mat3 → Int → Float → Float → Mat3

/-- Pixel-wise `cv2.cvtColor` application on a 3-channel raster. -/
def cvtMap (f : Pix → Pix) (m : Mat3) : Mat3 :=
  m.map fun row => row.map f

/-- `cv2.cvtColor(img, cv2.COLOR_BGR2GRAY)`: pixel-wise luma reduction of
a 3-channel raster to one channel. -/
def grayMap (cv : CVExt) (m : Mat3) : GrayMat :=
  m.map fun row => row.map cv.bgr2gray

/-- `cv2.split` on a 3-channel raster: the three single-channel planes. -/
def split3 (m : Mat3) : GrayMat × GrayMat × GrayMat :=
  (m.map fun row => row.map fun p => p.1,
   m.map fun row => row.map fun p => p.2.1,
   m.map fun row => row.map fun p => p.2.2)

/-- One row of `cv2.merge([c1, c2, c3])`: zip three sample rows back into
a row of 3-channel pixels. -/
def mergeRow (r1 r2 r3 : List Nat) : List Pix :=
  List.zipWith (fun v ab => (v, ab)) r1 (List.zipWith Prod.mk r2 r3)

/-- `cv2.merge([c1, c2, c3])`: recombine three single-channel planes. -/
def merge3 (c1 c2 c3 : GrayMat) : Mat3 :=
  List.zipWith (fun r1 r23 => mergeRow r1 r23.1 r23.2) c1
    (List.zipWith Prod.mk c2 c3)

/-- `cv2.normalize(src, alpha=0, beta=255, norm_type=cv2.NORM_MINMAX)` on
a single-channel 8-bit raster: stretch the value range to span 0..255,
`dst = (v - lo) * 255 / (hi - lo)` (rounding modelled as floor); when the
raster is constant every sample maps to alpha = 0, matching the library's
zero-scale degenerate case. -/
def minMaxRescale (g : GrayMat) : GrayMat :=
  match g.flatten with
  | [] => g
  | v :: vs =>
    let lo := vs.foldl min v
    let hi := vs.foldl max v
    if hi = lo then g.map fun row => row.map fun _ => 0
    else g.map fun row => row.map fun x => (x - lo) * 255 / (hi - lo)

/-- The `cv2.THRESH_*` flag constants used by the binarization handler. -/
inductive ThreshFlag where
  | binary
  | binary_inv
  | trunc
  | tozero
  | tozero_inv
deriving DecidableEq, Repr

/-- Per-pixel rule of `cv2.threshold(src, thresh, 255, flag)` on an 8-bit
sample `v`, per the library's documented semantics (with the threshold
saturated to the 8-bit range in the TRUNC output, matching the library's
handling of out-of-range thresholds on 8-bit input). -/
def threshPix (flag : ThreshFlag) (T : Int) (v : Nat) : Nat :=
  match flag with
  | .binary => if T < (v : Int) then 255 else 0
  | .binary_inv => if T < (v : Int) then 0 else 255
  | .trunc => if T < (v : Int) then min T.toNat 255 else v
  | .tozero => if T < (v : Int) then v else 0
  | .tozero_inv => if T < (v : Int) then 0 else v

/-- `cv2.threshold` applied to a whole single-channel raster. -/
def threshMat (flag : ThreshFlag) (T : Int) (g : GrayMat) : GrayMat :=
  g.map fun row => row.map (threshPix flag T)

/-- Model of `cv2.resize(img, (w, h))`: an output of exactly `h` rows by
`w` columns, each output pixel sampled from the source raster through the
standard index mapping (the interpolation arithmetic of the library's
default bilinear filter is abstracted to nearest-index sampling; every
claim below concerns only the output geometry). -/
def cvResize (m : Mat3) (w h : Nat) : Mat3 :=
  let srcH := m.length
  let srcW := (m.headD []).length
  (List.range h).map fun i =>
    (List.range w).map fun j =>
      (m.getD (i * srcH / h) []).getD (j * srcW / w) (0, 0, 0)

/-- `open_img` (lines 101-115): read the upload, decode it with
`cv2.imdecode(..., cv2.IMREAD_COLOR)`, raise `HTTPException(400, "Invalid
image file")` when decoding returns `None`, otherwise hand back the
(3-channel) raster. -/
def open_img (cv : CVExt) (bytes : List Nat) : Except ApiError Mat3 :=
  match cv.imdecode bytes with
  | none => Except.error invalidImageErr
  | some m => Except.ok m

/-- `/resize` handler (lines 133-152): decode, then
`cv2.resize(img, (params.width, params.height))`.  The library raises an
uncaught error when the requested size is not positive; that is modelled
by the `ApiError.exn` branch. -/
def resize_image (cv : CVExt) (params : ResizeParams) (bytes : List Nat) :
    Except ApiError Img :=
  match open_img cv bytes with
  | Except.error e => Except.error e
  | Except.ok img =>
    if params.width ≤ 0 ∨ params.height ≤ 0 then
      Except.error (ApiError.exn "cv2.resize: invalid dsize")
    else
      Except.ok (Img.color (cvResize img params.width.toNat params.height.toNat))

/-- The crop computation of the `/crop` handler (lines 165-172):
`height, width, _ = img.shape`; `size = min(width, height)`;
`left = (width - size) // 2`; `top = (height - size) // 2`;
`right = (width + size) // 2`; `bottom = (height + size) // 2`;
`img[top:bottom, left:right]`. -/
def cropTransform (img : Mat3) : Mat3 :=
  let height := img.length
  let width := (img.headD []).length
  let size := min width height
  let left := (width - size) / 2
  let top := (height - size) / 2
  let right := (width + size) / 2
  let bottom := (height + size) / 2
  ((img.drop top).take (bottom - top)).map fun row =>
    (row.drop left).take (right - left)

/-- `/crop` handler (lines 155-174): decode then center-crop. -/
def crop_image (cv : CVExt) (bytes : List Nat) : Except ApiError Img :=
  match open_img cv bytes with
  | Except.error e => Except.error e
  | Except.ok img => Except.ok (Img.color (cropTransform img))

/-- `/grayscale` handler (lines 177-193): decode then
`cv2.cvtColor(img, cv2.COLOR_BGR2GRAY)`. -/
def grayscale_image (cv : CVExt) (bytes : List Nat) : Except ApiError Img :=
  match open_img cv bytes with
  | Except.error e => Except.error e
  | Except.ok img => Except.ok (Img.gray (grayMap cv img))

/-- The technique dispatch of the `/noise_reduction` handler (lines
215-232): the `if / elif` chain assigning `processed_img`, including the
odd-kernel check of the median branch; `Except.ok none` models
`processed_img` remaining `None` after the chain. -/
def noiseDispatch (cv : CVExt) (p : NoiseReductionParams) (img : Mat3) :
    Except ApiError (Option Mat3) :=
  if p.technique = NoiseReductionTechniques.gaussian_blur then
    Except.ok (some (cv.gaussianBlur img (p.kernel_size, p.kernel_size) 0))
  else if p.technique = NoiseReductionTechniques.median_blur then
    if p.kernel_size % 2 = 0 then
      Except.error (ApiError.http 400 "Kernel size for median blur must be an odd number")
    else
      Except.ok (some (cv.medianBlur img p.kernel_size))
  else if p.technique = NoiseReductionTechniques.bilateral_filter then
    Except.ok (some (cv.bilateralFilter img p.kernel_size p.sigma_color p.sigma_space))
  else
    Except.ok none

/-- `/noise_reduction` handler (lines 196-235): decode, dispatch on the
technique, raise "Invalid noise reduction technique" when `processed_img`
is still `None`. -/
def noise_reduct_image (cv : CVExt) (p : NoiseReductionParams)
    (bytes : List Nat) : Except ApiError Img :=
  match open_img cv bytes with
  | Except.error e => Except.error e
  | Except.ok img =>
    match noiseDispatch cv p img with
    | Except.error e => Except.error e
    | Except.ok none =>
      Except.error (ApiError.http 400 "Invalid noise reduction technique")
    | Except.ok (some processed) => Except.ok (Img.color processed)

/-- The LAB-space matrix built by the RESCALING color branch (lines
260-264): split `cv2.cvtColor(img, cv2.COLOR_BGR2LAB)` into `l, a, b`,
min-max-normalize `l` into `dst`, and `cv2.merge([dst, a, b])`. -/
def rescaleMerged (cv : CVExt) (m : Mat3) : Mat3 :=
  let lab := cvtMap cv.bgr2lab m
  let s := split3 lab
  merge3 (minMaxRescale s.1) s.2.1 s.2.2

/-- The LAB-space matrix built by the HISTOGRAM_EQUALIZATION color branch
(lines 273-276): `cv2.merge([cv2.equalizeHist(l), a, b])`. -/
def histEqMerged (cv : CVExt) (m : Mat3) : Mat3 :=
  let lab := cvtMap cv.bgr2lab m
  let s := split3 lab
  merge3 (cv.equalizeHist s.1) s.2.1 s.2.2

/-- The LAB-space matrix built by the CLAHE color branch (lines 344-351):
`cv2.merge([clahe.apply(l), a, b])`. -/
def claheMerged (cv : CVExt) (clipLimit : Float) (tileGrid : Int)
    (m : Mat3) : Mat3 :=
  let lab := cvtMap cv.bgr2lab m
  let s := split3 lab
  merge3 (cv.clahe clipLimit tileGrid s.1) s.2.1 s.2.2

/-- The technique dispatch of the `/normalization` handler (lines
258-279), including the `len(img.shape) == 3` color/grayscale branching
of the source; `none` models `processed_img` remaining `None`. -/
def normalizeDispatch (cv : CVExt) (t : NormalizationTechniques)
    (img : Img) : Option Img :=
  if t = NormalizationTechniques.rescaling then
    some (match img with
      | Img.color m => Img.color (cvtMap cv.lab2bgr (rescaleMerged cv m))
      | Img.gray g => Img.gray (minMaxRescale g))
  else if t = NormalizationTechniques.histogram_equalization then
    some (match img with
      | Img.color m => Img.color (cvtMap cv.lab2bgr (histEqMerged cv m))
      | Img.gray g => Img.gray (cv.equalizeHist g))
  else
    none

/-- `/normalization` handler (lines 238-285). -/
def normalize_image (cv : CVExt) (p : NormalizationParams)
    (bytes : List Nat) : Except ApiError Img :=
  match open_img cv bytes with
  | Except.error e => Except.error e
  | Except.ok m =>
    match normalizeDispatch cv p.technique (Img.color m) with
    | none => Except.error (ApiError.http 400 "Invalid normalization technique")
    | some r => Except.ok r

/-- The `/normalization` dispatch restricted to the color branches only
(the `len(img.shape) == 3` sides); used to express that the grayscale
`else` branches of the handler are unreachable. -/
def normalizeDispatchColor (cv : CVExt) (t : NormalizationTechniques)
    (m : Mat3) : Option Img :=
  if t = NormalizationTechniques.rescaling then
    some (Img.color (cvtMap cv.lab2bgr (rescaleMerged cv m)))
  else if t = NormalizationTechniques.histogram_equalization then
    some (Img.color (cvtMap cv.lab2bgr (histEqMerged cv m)))
  else
    none

/-- `/normalization` handler with the grayscale branches cut off. -/
def normalize_image_colorOnly (cv : CVExt) (p : NormalizationParams)
    (bytes : List Nat) : Except ApiError Img :=
  match open_img cv bytes with
  | Except.error e => Except.error e
  | Except.ok m =>
    match normalizeDispatchColor cv p.technique m with
    | none => Except.error (ApiError.http 400 "Invalid normalization technique")
    | some r => Except.ok r

/-- The `technique_map` dictionary of the binarization handler (lines
307-313), as its association list. -/
def technique_map : List (BinarizationTechniques × ThreshFlag) :=
  [(BinarizationTechniques.binary, ThreshFlag.binary),
   (BinarizationTechniques.binary_inv, ThreshFlag.binary_inv),
   (BinarizationTechniques.trunc, ThreshFlag.trunc),
   (BinarizationTechniques.tozero, ThreshFlag.tozero),
   (BinarizationTechniques.tozero_inv, ThreshFlag.tozero_inv)]

/-- The flag each technique is mapped to. -/
def flagOf : BinarizationTechniques → ThreshFlag
  | BinarizationTechniques.binary => ThreshFlag.binary
  | BinarizationTechniques.binary_inv => ThreshFlag.binary_inv
  | BinarizationTechniques.trunc => ThreshFlag.trunc
  | BinarizationTechniques.tozero => ThreshFlag.tozero
  | BinarizationTechniques.tozero_inv => ThreshFlag.tozero_inv

/-- `/binarization` handler (lines 288-320): decode, convert to
grayscale, look the technique up in `technique_map` (a missing key would
raise an uncaught `KeyError`, modelled by `ApiError.exn`), then
`cv2.threshold(gray_img, params.threshold, 255, flag)`. -/
def binarize_image (cv : CVExt) (p : BinarizationParams)
    (bytes : List Nat) : Except ApiError Img :=
  match open_img cv bytes with
  | Except.error e => Except.error e
  | Except.ok img =>
    let gray_img := grayMap cv img
    match technique_map.lookup p.technique with
    | none => Except.error (ApiError.exn "KeyError")
    | some flag => Except.ok (Img.gray (threshMat flag p.threshold gray_img))

/-- The technique dispatch of the `/contrast` handler (lines 342-358),
including the `len(img.shape) == 3` branching of the source. -/
def contrastDispatch (cv : CVExt) (p : ContrastParams) (img : Img) :
    Option Img :=
  if p.technique = ContrastTechniques.clahe then
    some (match img with
      | Img.color m =>
        Img.color (cvtMap cv.lab2bgr (claheMerged cv p.clip_limit p.tile_grid_size m))
      | Img.gray g => Img.gray (cv.clahe p.clip_limit p.tile_grid_size g))
  else
    none

/-- `/contrast` handler (lines 323-366). -/
def enhance_contrast_image (cv : CVExt) (p : ContrastParams)
    (bytes : List Nat) : Except ApiError Img :=
  match open_img cv bytes with
  | Except.error e => Except.error e
  | Except.ok m =>
    match contrastDispatch cv p (Img.color m) with
    | none => Except.error (ApiError.http 400 "Invalid contrast enhancement technique")
    | some r => Except.ok r

/-- The `/contrast` dispatch restricted to the color branch only. -/
def contrastDispatchColor (cv : CVExt) (p : ContrastParams) (m : Mat3) :
    Option Img :=
  if p.technique = ContrastTechniques.clahe then
    some (Img.color (cvtMap cv.lab2bgr (claheMerged cv p.clip_limit p.tile_grid_size m)))
  else
    none

/-- `/contrast` handler with the grayscale branch cut off. -/
def enhance_contrast_colorOnly (cv : CVExt) (p : ContrastParams)
    (bytes : List Nat) : Except ApiError Img :=
  match open_img cv bytes with
  | Except.error e => Except.error e
  | Except.ok m =>
    match contrastDispatchColor cv p m with
    | none => Except.error (ApiError.http 400 "Invalid contrast enhancement technique")
    | some r => Except.ok r

/-- A concrete instantiation of the library callbacks, used to evaluate
the theorems below on closed inputs: `imdecode` reads the requested
height and width from the head of the byte list (failing on empty input)
and the filters are dimension-preserving stand-ins. -/
def cvW : CVExt where
  imdecode := fun bytes =>
    match bytes with
    | [] => none
    | h :: rest => some (List.replicate h (List.replicate (rest.headD h) (2, 3, 4)))
  bgr2gray := fun p => p.1
  bgr2lab := fun p => p
  lab2bgr := fun p => p
  equalizeHist := fun g => g
  clahe := fun _ _ g => g
  gaussianBlur := fun m _ _ => m
  medianBlur := fun m _ => m
  bilateralFilter := fun m _ _ _ => m

/-- C1: for a noise-reduction request with technique MEDIAN_BLUR on a
decodable image, an even kernel_size makes the handler fail with the 400
InvalidParameter error before any filtering (the result is this error for
every possible `medianBlur` callback), while an odd kernel_size makes the
handler apply the median filter and succeed. -/
theorem claim_C1_median_blur_kernel_parity (cv : CVExt) (bytes : List Nat)
    (m : Mat3) (k : Int) (sc ss : Float)
    (hdec : cv.imdecode bytes = some m) :
    (k % 2 = 0 →
      noise_reduct_image cv ⟨NoiseReductionTechniques.median_blur, k, sc, ss⟩ bytes =
        Except.error (ApiError.http 400 "Kernel size for median blur must be an odd number")) ∧
    (k % 2 ≠ 0 →
      noise_reduct_image cv ⟨NoiseReductionTechniques.median_blur, k, sc, ss⟩ bytes =
        Except.ok (Img.color (cv.medianBlur m k))) := by
  constructor <;> intro hk <;>
    simp [noise_reduct_image, open_img, hdec, noiseDispatch, hk]

/-- Witness for C1: kernel_size 4 is rejected with the odd-kernel error
and the default kernel_size 5 succeeds, on a concrete decoded image. -/
theorem claim_C1_median_blur_kernel_parity_witness :
    noise_reduct_image cvW ⟨NoiseReductionTechniques.median_blur, 4, 75.0, 75.0⟩ [1] =
      Except.error (ApiError.http 400 "Kernel size for median blur must be an odd number") ∧
    noise_reduct_image cvW ⟨NoiseReductionTechniques.median_blur, 5, 75.0, 75.0⟩ [1] =
      Except.ok (Img.color [[(2, 3, 4)]]) :=
  ⟨(claim_C1_median_blur_kernel_parity cvW [1] [[(2, 3, 4)]] 4 75.0 75.0 rfl).1 (by decide),
   (claim_C1_median_blur_kernel_parity cvW [1] [[(2, 3, 4)]] 5 75.0 75.0 rfl).2 (by decide)⟩

/-- C3: when the uploaded byte stream cannot be decoded, every endpoint
that decodes the upload fails with the InvalidImage 400 error, so no
output image is produced. -/
theorem claim_C3_invalid_image_rejected_everywhere (cv : CVExt)
    (bytes : List Nat) (hdec : cv.imdecode bytes = none) :
    (∀ p : ResizeParams, resize_image cv p bytes = Except.error invalidImageErr) ∧
    crop_image cv bytes = Except.error invalidImageErr ∧
    grayscale_image cv bytes = Except.error invalidImageErr ∧
    (∀ p : NoiseReductionParams,
      noise_reduct_image cv p bytes = Except.error invalidImageErr) ∧
    (∀ p : NormalizationParams,
      normalize_image cv p bytes = Except.error invalidImageErr) ∧
    (∀ p : BinarizationParams,
      binarize_image cv p bytes = Except.error invalidImageErr) ∧
    (∀ p : ContrastParams,
      enhance_contrast_image cv p bytes = Except.error invalidImageErr) := by
  refine ⟨fun p => ?_, ?_, ?_, fun p => ?_, fun p => ?_, fun p => ?_, fun p => ?_⟩ <;>
    simp [resize_image, crop_image, grayscale_image, noise_reduct_image,
      normalize_image, binarize_image, enhance_contrast_image, open_img, hdec]

/-- Witness for C3: the empty upload decodes to nothing and every
endpoint reports InvalidImage on it. -/
theorem claim_C3_invalid_image_rejected_everywhere_witness :
    resize_image cvW ⟨10, 10⟩ [] = Except.error invalidImageErr ∧
    crop_image cvW [] = Except.error invalidImageErr ∧
    grayscale_image cvW [] = Except.error invalidImageErr ∧
    noise_reduct_image cvW ⟨NoiseReductionTechniques.gaussian_blur, 5, 75.0, 75.0⟩ [] =
      Except.error invalidImageErr ∧
    normalize_image cvW ⟨NormalizationTechniques.rescaling⟩ [] =
      Except.error invalidImageErr ∧
    binarize_image cvW ⟨BinarizationTechniques.binary, 127⟩ [] =
      Except.error invalidImageErr ∧
    enhance_contrast_image cvW ⟨ContrastTechniques.clahe, 2.0, 8⟩ [] =
      Except.error invalidImageErr := by
  have H := claim_C3_invalid_image_rejected_everywhere cvW [] rfl
  exact ⟨H.1 _, H.2.1, H.2.2.1, H.2.2.2.1 _, H.2.2.2.2.1 _, H.2.2.2.2.2.1 _,
    H.2.2.2.2.2.2 _⟩

/-- C10: the binarization technique-to-flag dictionary is total over the
`BinarizationTechniques` enumeration — every lookup succeeds — and
consequently the binarization handler never fails on a valid technique:
its only failure is the InvalidImage decode error. -/
theorem claim_C10_technique_map_total :
    (∀ t : BinarizationTechniques, technique_map.lookup t = some (flagOf t)) ∧
    (∀ (cv : CVExt) (p : BinarizationParams) (bytes : List Nat),
      binarize_image cv p bytes = Except.error invalidImageErr ∨
      ∃ g : GrayMat, binarize_image cv p bytes = Except.ok (Img.gray g)) := by
  constructor
  · intro t; cases t <;> rfl
  · intro cv p bytes
    cases hdec : cv.imdecode bytes with
    | none => exact Or.inl (by simp [binarize_image, open_img, hdec])
    | some m =>
      refine Or.inr ⟨threshMat (flagOf p.technique) p.threshold (grayMap cv m), ?_⟩
      have hl : technique_map.lookup p.technique = some (flagOf p.technique) := by
        cases p.technique <;> rfl
      simp [binarize_image, open_img, hdec, hl]

/-- C7 counterexample: a request with threshold 300 (outside 0..255) is
not rejected — parameter validation accepts it (as it accepts -5) and the
handler runs the thresholding to completion, returning an image. -/
theorem claim_C7_counterexample_threshold_not_range_checked :
    validateBinarizationParams BinarizationTechniques.binary 300 =
      Except.ok ⟨BinarizationTechniques.binary, 300⟩ ∧
    validateBinarizationParams BinarizationTechniques.binary (-5) =
      Except.ok ⟨BinarizationTechniques.binary, -5⟩ ∧
    binarize_image cvW ⟨BinarizationTechniques.binary, 300⟩ [1] =
      Except.ok (Img.gray [[0]]) ∧
    ∀ e : ApiError,
      binarize_image cvW ⟨BinarizationTechniques.binary, 300⟩ [1] ≠ Except.error e := by
  have hok : binarize_image cvW ⟨BinarizationTechniques.binary, 300⟩ [1] =
      Except.ok (Img.gray [[0]]) := by rfl
  refine ⟨rfl, rfl, hok, fun e h => ?_⟩
  rw [hok] at h
  exact Except.noConfusion h

/-- C7 amended: the binarization threshold is only validated to be an
integer (pydantic declares no 0..255 range constraint), so every integer
threshold is accepted and thresholding is applied to it. -/
theorem claim_C7_amended_no_threshold_range_validation
    (t : BinarizationTechniques) (T : Int) (cv : CVExt) (bytes : List Nat)
    (m : Mat3) (hdec : cv.imdecode bytes = some m) :
    validateBinarizationParams t T = Except.ok ⟨t, T⟩ ∧
    binarize_image cv ⟨t, T⟩ bytes =
      Except.ok (Img.gray (threshMat (flagOf t) T (grayMap cv m))) := by
  refine ⟨rfl, ?_⟩
  have hl : technique_map.lookup t = some (flagOf t) := by cases t <;> rfl
  simp [binarize_image, open_img, hdec, hl]

/-- Witness for the amended C7: an out-of-range threshold of 999 is
accepted and thresholded on a concrete image. -/
theorem claim_C7_amended_no_threshold_range_validation_witness :
    validateBinarizationParams BinarizationTechniques.binary 999 =
      Except.ok ⟨BinarizationTechniques.binary, 999⟩ ∧
    binarize_image cvW ⟨BinarizationTechniques.binary, 999⟩ [1] =
      Except.ok (Img.gray (threshMat (flagOf BinarizationTechniques.binary) 999
        (grayMap cvW [[(2, 3, 4)]]))) :=
  claim_C7_amended_no_threshold_range_validation
    BinarizationTechniques.binary 999 cvW [1] [[(2, 3, 4)]] rfl

/-- C9: every raster returned by `open_img` has 3 dimensions (the decode
mode forces color), and consequently the normalization and contrast
handlers coincide with their variants whose single-channel `else`
branches have been removed — those branches are unreachable. -/
theorem claim_C9_decode_forces_color_paths (cv : CVExt) (bytes : List Nat)
    (tN : NormalizationTechniques) (tC : ContrastTechniques)
    (cl : Float) (ts : Int) :
    (∀ m : Mat3, open_img cv bytes = Except.ok m → Img.ndim (Img.color m) = 3) ∧
    normalize_image cv ⟨tN⟩ bytes = normalize_image_colorOnly cv ⟨tN⟩ bytes ∧
    enhance_contrast_image cv ⟨tC, cl, ts⟩ bytes =
      enhance_contrast_colorOnly cv ⟨tC, cl, ts⟩ bytes := by
  refine ⟨fun m _ => rfl, ?_, ?_⟩
  · cases hdec : cv.imdecode bytes <;>
      cases tN <;>
        simp [normalize_image, normalize_image_colorOnly, open_img, hdec,
          normalizeDispatch, normalizeDispatchColor]
  · cases hdec : cv.imdecode bytes <;>
      cases tC <;>
        simp [enhance_contrast_image, enhance_contrast_colorOnly, open_img, hdec,
          contrastDispatch, contrastDispatchColor]

/-- Witness for C9 on a concrete upload: the decoded raster is 3-channel
and the normalization handler agrees with its color-only variant. -/
theorem claim_C9_decode_forces_color_paths_witness :
    Img.ndim (Img.color [[(2, 3, 4)]]) = 3 ∧
    normalize_image cvW ⟨NormalizationTechniques.rescaling⟩ [1] =
      normalize_image_colorOnly cvW ⟨NormalizationTechniques.rescaling⟩ [1] := by
  have H := claim_C9_decode_forces_color_paths cvW [1]
    NormalizationTechniques.rescaling ContrastTechniques.clahe 2.0 8
  exact ⟨H.1 [[(2, 3, 4)]] rfl, H.2.1⟩

/-- C4: the binarization handler converts the decoded image to grayscale
first and then thresholds it per the selected technique; under BINARY
every output sample is exactly 0 or 255, and under TRUNC (with the
threshold in the representable pixel range) no output sample exceeds the
threshold. -/
theorem claim_C4_binarization_grayscale_then_threshold (cv : CVExt)
    (bytes : List Nat) (m : Mat3) (t : BinarizationTechniques) (T : Int)
    (hdec : cv.imdecode bytes = some m) :
    binarize_image cv ⟨t, T⟩ bytes =
      Except.ok (Img.gray (threshMat (flagOf t) T (grayMap cv m))) ∧
    (t = BinarizationTechniques.binary →
      ∀ row ∈ threshMat (flagOf t) T (grayMap cv m), ∀ v ∈ row,
        v = 0 ∨ v = 255) ∧
    (t = BinarizationTechniques.trunc → 0 ≤ T →
      ∀ row ∈ threshMat (flagOf t) T (grayMap cv m), ∀ v ∈ row,
        (v : Int) ≤ T) := by
  refine ⟨?_, ?_, ?_⟩
  · have hl : technique_map.lookup t = some (flagOf t) := by cases t <;> rfl
    simp [binarize_image, open_img, hdec, hl]
  · rintro rfl row hrow v hv
    simp only [threshMat] at hrow
    rcases List.mem_map.1 hrow with ⟨r, hr, rfl⟩
    rcases List.mem_map.1 hv with ⟨u, hu, rfl⟩
    simp only [flagOf, threshPix]
    split
    · exact Or.inr rfl
    · exact Or.inl rfl
  · rintro rfl hT row hrow v hv
    simp only [threshMat] at hrow
    rcases List.mem_map.1 hrow with ⟨r, hr, rfl⟩
    rcases List.mem_map.1 hv with ⟨u, hu, rfl⟩
    simp only [flagOf, threshPix]
    split <;> rename_i hu' <;> omega

/-- Witness for C4 on a concrete image: the handler output under BINARY
at threshold 127, the two-value property of that output, and the bound of
the TRUNC output at threshold 100. -/
theorem claim_C4_binarization_grayscale_then_threshold_witness :
    binarize_image cvW ⟨BinarizationTechniques.binary, 127⟩ [1] =
      Except.ok (Img.gray (threshMat (flagOf BinarizationTechniques.binary) 127
        (grayMap cvW [[(2, 3, 4)]]))) ∧
    (∀ row ∈ threshMat (flagOf BinarizationTechniques.binary) 127
        (grayMap cvW [[(2, 3, 4)]]), ∀ v ∈ row, v = 0 ∨ v = 255) ∧
    (∀ row ∈ threshMat (flagOf BinarizationTechniques.trunc) 100
        (grayMap cvW [[(2, 3, 4)]]), ∀ v ∈ row, (v : Int) ≤ 100) := by
  have H1 := claim_C4_binarization_grayscale_then_threshold cvW [1]
    [[(2, 3, 4)]] BinarizationTechniques.binary 127 rfl
  have H2 := claim_C4_binarization_grayscale_then_threshold cvW [1]
    [[(2, 3, 4)]] BinarizationTechniques.trunc 100 rfl
  exact ⟨H1.1, H1.2.1 rfl, H2.2.2 rfl (by decide)⟩

/-- C2: on a decodable image of positive width and height the center crop
produces a square raster whose side is `min(width, height)`, and the
code's `right = (width + size) // 2`, `bottom = (height + size) // 2`
coincide with `left + size` and `top + size`. -/
theorem claim_C2_center_crop_square (w h : Nat) (m : Mat3)
    (hwf : matWF m h w) (hw : 1 ≤ w) (hh : 1 ≤ h) :
    ((w + min w h) / 2 = (w - min w h) / 2 + min w h ∧
     (h + min w h) / 2 = (h - min w h) / 2 + min w h) ∧
    matWF (cropTransform m) (min w h) (min w h) ∧
    (∀ (cv : CVExt) (bytes : List Nat), cv.imdecode bytes = some m →
      crop_image cv bytes = Except.ok (Img.color (cropTransform m))) := by
  obtain ⟨hlen, hrows⟩ := hwf
  have hs1 : min w h ≤ w := Nat.min_le_left w h
  have hs2 : min w h ≤ h := Nat.min_le_right w h
  have hne : m ≠ [] := by
    intro hnil
    rw [hnil] at hlen
    simp at hlen
    omega
  have hwidth : (m.headD []).length = w := by
    cases m with
    | nil => exact absurd rfl hne
    | cons r tl => simpa using hrows r (List.mem_cons_self r tl)
  refine ⟨⟨by omega, by omega⟩, ?_, ?_⟩
  · have hct : cropTransform m =
        ((m.drop ((h - min w h) / 2)).take (min w h)).map fun row =>
          (row.drop ((w - min w h) / 2)).take (min w h) := by
      simp only [cropTransform, hlen, hwidth]
      rw [show (h + min w h) / 2 - (h - min w h) / 2 = min w h by omega,
          show (w + min w h) / 2 - (w - min w h) / 2 = min w h by omega]
    rw [hct]
    constructor
    · simp only [List.length_map, List.length_take, List.length_drop, hlen]
      omega
    · intro row hrow
      rcases List.mem_map.1 hrow with ⟨r0, hr0, rfl⟩
      have hr0m : r0 ∈ m := List.drop_subset _ _ (List.take_subset _ _ hr0)
      have hr0w : r0.length = w := hrows r0 hr0m
      simp only [List.length_take, List.length_drop, hr0w]
      omega
  · intro cv bytes hdec
    simp [crop_image, open_img, hdec]

/-- Witness for C2 on a concrete 2-row, 1-column image: the crop window
arithmetic, the square 1-by-1 output, and the endpoint behaviour. -/
theorem claim_C2_center_crop_square_witness :
    matWF ([[(2, 3, 4)], [(2, 3, 4)]] : Mat3) 2 1 ∧
    matWF (cropTransform [[(2, 3, 4)], [(2, 3, 4)]]) (min 1 2) (min 1 2) ∧
    crop_image cvW [2, 1] =
      Except.ok (Img.color (cropTransform [[(2, 3, 4)], [(2, 3, 4)]])) := by
  have H := claim_C2_center_crop_square 1 2 [[(2, 3, 4)], [(2, 3, 4)]]
    (by decide) (by decide) (by decide)
  exact ⟨by decide, H.2.1, H.2.2 cvW [2, 1] rfl⟩

/-- Rows of width `n` are unchanged by `take n`. -/
theorem map_take_rows_self {α : Type} (l : List (List α)) (n : Nat)
    (h : ∀ row ∈ l, row.length = n) : (l.map fun row => row.take n) = l := by
  induction l with
  | nil => rfl
  | cons r tl ih =>
    have hr : r.length = n := h r (List.mem_cons_self r tl)
    have ih' := ih fun row hrow => h row (List.mem_cons_of_mem r hrow)
    rw [List.map_cons, ih', ← hr, List.take_length]

/-- C8: center crop is idempotent on an already-square image — the
computed crop window is the whole image, so the transform returns its
input, and the endpoint returns the decoded image unchanged. -/
theorem claim_C8_crop_idempotent_on_square (n : Nat) (m : Mat3)
    (hwf : matWF m n n) :
    cropTransform m = m ∧
    (∀ (cv : CVExt) (bytes : List Nat), cv.imdecode bytes = some m →
      crop_image cv bytes = Except.ok (Img.color m)) := by
  obtain ⟨hlen, hrows⟩ := hwf
  have hid : cropTransform m = m := by
    cases m with
    | nil => rfl
    | cons r tl =>
      have hw : r.length = n := hrows r (List.mem_cons_self r tl)
      have hwidth : ((r :: tl).headD []).length = n := by simpa using hw
      simp only [cropTransform, hlen, hwidth, Nat.min_self]
      rw [show (n + n) / 2 - (n - n) / 2 = n by omega,
          show (n - n) / 2 = 0 by omega]
      simp only [List.drop_zero]
      rw [List.take_of_length_le (show (r :: tl).length ≤ n from le_of_eq hlen)]
      exact map_take_rows_self (r :: tl) n hrows
  refine ⟨hid, fun cv bytes hdec => ?_⟩
  simp [crop_image, open_img, hdec, hid]

/-- Witness for C8: a concrete 1-by-1 image is returned unchanged by the
crop transform and by the endpoint. -/
theorem claim_C8_crop_idempotent_on_square_witness :
    matWF ([[(2, 3, 4)]] : Mat3) 1 1 ∧
    cropTransform [[(2, 3, 4)]] = [[(2, 3, 4)]] ∧
    crop_image cvW [1] = Except.ok (Img.color [[(2, 3, 4)]]) := by
  have H := claim_C8_crop_idempotent_on_square 1 [[(2, 3, 4)]] (by decide)
  exact ⟨by decide, H.1, H.2 cvW [1] rfl⟩

/-- C5: for positive target width and height and a decodable input, the
resize handler succeeds and its output raster has exactly `height` rows
of exactly `width` pixels — the target dimensions are honoured with no
aspect-ratio preservation. -/
theorem claim_C5_resize_exact_dimensions (cv : CVExt) (bytes : List Nat)
    (m : Mat3) (w h : Int) (hdec : cv.imdecode bytes = some m)
    (hw : 0 < w) (hh : 0 < h) :
    resize_image cv ⟨w, h⟩ bytes =
      Except.ok (Img.color (cvResize m w.toNat h.toNat)) ∧
    (cvResize m w.toNat h.toNat).length = h.toNat ∧
    ∀ row ∈ cvResize m w.toNat h.toNat, row.length = w.toNat := by
  refine ⟨?_, ?_, ?_⟩
  · have hcond : ¬(w ≤ 0 ∨ h ≤ 0) := by omega
    simp [resize_image, open_img, hdec, hcond]
  · simp [cvResize]
  · intro row hrow
    simp only [cvResize] at hrow
    rcases List.mem_map.1 hrow with ⟨i, hi, rfl⟩
    simp

/-- Witness for C5: a 2-by-3 source resized to width 5, height 1. -/
theorem claim_C5_resize_exact_dimensions_witness :
    resize_image cvW ⟨5, 1⟩ [2, 3] =
      Except.ok (Img.color (cvResize (List.replicate 2 (List.replicate 3 (2, 3, 4)))
        (Int.toNat 5) (Int.toNat 1))) ∧
    (cvResize (List.replicate 2 (List.replicate 3 (2, 3, 4)))
      (Int.toNat 5) (Int.toNat 1)).length = Int.toNat 1 ∧
    ∀ row ∈ cvResize (List.replicate 2 (List.replicate 3 (2, 3, 4)))
      (Int.toNat 5) (Int.toNat 1), row.length = Int.toNat 5 := by
  have H := claim_C5_resize_exact_dimensions cvW [2, 3]
    (List.replicate 2 (List.replicate 3 (2, 3, 4))) 5 1 rfl (by decide) (by decide)
  exact ⟨H.1, H.2.1, H.2.2⟩

/-- Applying a function pixel-wise preserves raster shape. -/
theorem matWF_map {α β : Type} (f : α → β) (m : List (List α)) (h w : Nat)
    (hm : matWF m h w) : matWF (m.map fun row => row.map f) h w := by
  obtain ⟨hlen, hrows⟩ := hm
  refine ⟨by simp [hlen], ?_⟩
  intro row hrow
  rcases List.mem_map.1 hrow with ⟨r, hr, rfl⟩
  simp [hrows r hr]

/-- Splitting a merged row recovers the three sample rows, when their
lengths agree. -/
theorem mergeRow_split (r1 r2 r3 : List Nat) (h2 : r2.length = r1.length)
    (h3 : r3.length = r1.length) :
    (mergeRow r1 r2 r3).map (fun p => p.1) = r1 ∧
    (mergeRow r1 r2 r3).map (fun p => p.2.1) = r2 ∧
    (mergeRow r1 r2 r3).map (fun p => p.2.2) = r3 := by
  induction r1 generalizing r2 r3 with
  | nil =>
    cases r2 with
    | nil =>
      cases r3 with
      | nil => exact ⟨rfl, rfl, rfl⟩
      | cons c t3 => simp at h3
    | cons b t2 => simp at h2
  | cons v t1 ih =>
    cases r2 with
    | nil => simp at h2
    | cons b t2 =>
      cases r3 with
      | nil => simp at h3
      | cons c t3 =>
        obtain ⟨e1, e2, e3⟩ := ih t2 t3 (by simpa using h2) (by simpa using h3)
        rw [show mergeRow (v :: t1) (b :: t2) (c :: t3) =
          (v, b, c) :: mergeRow t1 t2 t3 from rfl]
        simp [e1, e2, e3]

/-- Splitting a merged raster recovers the three planes, when all rows
have the same width and the plane heights agree. -/
theorem merge3_split_aux (x : GrayMat) : ∀ (a b : GrayMat) (w : Nat),
    a.length = x.length → b.length = x.length →
    (∀ r ∈ x, r.length = w) → (∀ r ∈ a, r.length = w) →
    (∀ r ∈ b, r.length = w) →
    split3 (merge3 x a b) = (x, a, b) := by
  induction x with
  | nil =>
    intro a b w hal hbl _ _ _
    cases a with
    | cons ra ta => simp at hal
    | nil =>
      cases b with
      | cons rb tb => simp at hbl
      | nil => rfl
  | cons rx tx ih =>
    intro a b w hal hbl hxr har hbr
    cases a with
    | nil => simp at hal
    | cons ra ta =>
      cases b with
      | nil => simp at hbl
      | cons rb tb =>
        have hrowx : rx.length = w := hxr rx (List.mem_cons_self rx tx)
        have hrowa : ra.length = rx.length := by
          rw [har ra (List.mem_cons_self ra ta), hrowx]
        have hrowb : rb.length = rx.length := by
          rw [hbr rb (List.mem_cons_self rb tb), hrowx]
        have IH := ih ta tb w (by simpa using hal) (by simpa using hbl)
          (fun r hr => hxr r (List.mem_cons_of_mem rx hr))
          (fun r hr => har r (List.mem_cons_of_mem ra hr))
          (fun r hr => hbr r (List.mem_cons_of_mem rb hr))
        obtain ⟨e1, e2, e3⟩ := mergeRow_split rx ra rb hrowa hrowb
        rw [show merge3 (rx :: tx) (ra :: ta) (rb :: tb) =
          mergeRow rx ra rb :: merge3 tx ta tb from rfl]
        simp only [split3, List.map_cons, Prod.mk.injEq] at IH ⊢
        exact ⟨by rw [e1, IH.1], by rw [e2, IH.2.1], by rw [e3, IH.2.2]⟩

/-- Splitting a merged raster recovers the three planes, when all three
have the same shape (`cv2.split` after `cv2.merge` is the identity). -/
theorem split3_merge3 (h w : Nat) (x a b : GrayMat) (hx : matWF x h w)
    (ha : matWF a h w) (hb : matWF b h w) :
    split3 (merge3 x a b) = (x, a, b) := by
  obtain ⟨hxl, hxr⟩ := hx
  obtain ⟨hal, har⟩ := ha
  obtain ⟨hbl, hbr⟩ := hb
  exact merge3_split_aux x a b w (by omega) (by omega) hxr har hbr

/-- Min-max rescaling preserves raster shape. -/
theorem matWF_minMaxRescale (g : GrayMat) (h w : Nat) (hg : matWF g h w) :
    matWF (minMaxRescale g) h w := by
  unfold minMaxRescale
  split
  · exact hg
  · dsimp only
    split
    · exact matWF_map _ g h w hg
    · exact matWF_map _ g h w hg

/-- C6: on a 3-channel input, the RESCALING and HISTOGRAM_EQUALIZATION
normalizations and the CLAHE contrast enhancement modify only the
luminance plane of the LAB representation: splitting the matrix each
color branch passes to the back-conversion yields exactly the processed
luminance plane together with the untouched chrominance planes `a`, `b`
obtained from the forward conversion — and those merged matrices are
precisely what the handlers produce before converting back.  The two
shape hypotheses state that the external `equalizeHist` and CLAHE calls
preserve raster shape, which the library guarantees. -/
theorem claim_C6_chrominance_preserved (cv : CVExt) (m : Mat3) (h w : Nat)
    (cl : Float) (ts : Int) (hwf : matWF m h w)
    (heq : matWF (cv.equalizeHist (split3 (cvtMap cv.bgr2lab m)).1) h w)
    (hcl : matWF (cv.clahe cl ts (split3 (cvtMap cv.bgr2lab m)).1) h w) :
    (split3 (rescaleMerged cv m) =
      (minMaxRescale (split3 (cvtMap cv.bgr2lab m)).1,
       (split3 (cvtMap cv.bgr2lab m)).2.1,
       (split3 (cvtMap cv.bgr2lab m)).2.2) ∧
     split3 (histEqMerged cv m) =
      (cv.equalizeHist (split3 (cvtMap cv.bgr2lab m)).1,
       (split3 (cvtMap cv.bgr2lab m)).2.1,
       (split3 (cvtMap cv.bgr2lab m)).2.2) ∧
     split3 (claheMerged cv cl ts m) =
      (cv.clahe cl ts (split3 (cvtMap cv.bgr2lab m)).1,
       (split3 (cvtMap cv.bgr2lab m)).2.1,
       (split3 (cvtMap cv.bgr2lab m)).2.2)) ∧
    ∀ (bytes : List Nat), cv.imdecode bytes = some m →
      normalize_image cv ⟨NormalizationTechniques.rescaling⟩ bytes =
        Except.ok (Img.color (cvtMap cv.lab2bgr (rescaleMerged cv m))) ∧
      normalize_image cv ⟨NormalizationTechniques.histogram_equalization⟩ bytes =
        Except.ok (Img.color (cvtMap cv.lab2bgr (histEqMerged cv m))) ∧
      enhance_contrast_image cv ⟨ContrastTechniques.clahe, cl, ts⟩ bytes =
        Except.ok (Img.color (cvtMap cv.lab2bgr (claheMerged cv cl ts m))) := by
  have hlab : matWF (cvtMap cv.bgr2lab m) h w := matWF_map _ m h w hwf
  have h1 : matWF (split3 (cvtMap cv.bgr2lab m)).1 h w := matWF_map _ _ h w hlab
  have h2 : matWF (split3 (cvtMap cv.bgr2lab m)).2.1 h w := matWF_map _ _ h w hlab
  have h3 : matWF (split3 (cvtMap cv.bgr2lab m)).2.2 h w := matWF_map _ _ h w hlab
  refine ⟨⟨?_, ?_, ?_⟩, ?_⟩
  · exact split3_merge3 h w _ _ _ (matWF_minMaxRescale _ h w h1) h2 h3
  · exact split3_merge3 h w _ _ _ heq h2 h3
  · exact split3_merge3 h w _ _ _ hcl h2 h3
  · intro bytes hdec
    refine ⟨?_, ?_, ?_⟩ <;>
      simp [normalize_image, enhance_contrast_image, open_img, hdec,
        normalizeDispatch, contrastDispatch]

/-- Witness for C6 on a concrete 1-by-1 image with the concrete library
callbacks: the merged LAB matrix splits back into the processed luminance
and the untouched chrominance planes, and the normalization endpoint
produces the corresponding image. -/
theorem claim_C6_chrominance_preserved_witness :
    matWF ([[(2, 3, 4)]] : Mat3) 1 1 ∧
    split3 (rescaleMerged cvW [[(2, 3, 4)]]) =
      (minMaxRescale (split3 (cvtMap cvW.bgr2lab [[(2, 3, 4)]])).1,
       (split3 (cvtMap cvW.bgr2lab [[(2, 3, 4)]])).2.1,
       (split3 (cvtMap cvW.bgr2lab [[(2, 3, 4)]])).2.2) ∧
    normalize_image cvW ⟨NormalizationTechniques.rescaling⟩ [1] =
      Except.ok (Img.color (cvtMap cvW.lab2bgr (rescaleMerged cvW [[(2, 3, 4)]]))) := by
  have H := claim_C6_chrominance_preserved cvW [[(2, 3, 4)]] 1 1 2.0 8
    (by decide) (by decide) (by decide)
  exact ⟨by decide, H.1.1, (H.2 [1] rfl).1⟩
